import Mathlib

/-
  Verification of the per-worker supervision loop of
  src/restart_manager.py against its design document.

  The Python source is shallowly embedded below.  Pure computations
  (line reconstruction, spawn configuration, the termination ladder)
  become Lean functions; the stateful worker loop becomes an explicit
  step function over a worker state, with the observations the loop
  makes of its environment (poll results, select results, the clock)
  supplied as an explicit environment record, and the externally
  visible operations (terminate, spawn, signals, sleeps) recorded as
  an action trace.
-/

namespace RestartManager

/-! ## Line reconstruction (src/restart_manager.py lines 76-102)

The worker reads one character at a time from a ready pipe into a
fresh buffer.  A carriage return truncates the buffer, a newline
finalizes the buffer as one record (testing it against the restart
pattern and refreshing the last-output time on a match), and any
other character is appended.  After the loop, leftover buffer
content refreshes the last-output time (line 101-102). -/

/-- Does the pattern list occur at the head of the text list?
Used to embed a literal-pattern regular-expression search. -/
def headMatch : List Char → List Char → Bool
  | [], _ => true
  | _ :: _, [] => false
  | a :: as, b :: bs => a = b && headMatch as bs

/-- Embedding of re.search for a literal pattern: the pattern occurs
somewhere in the line. -/
def strSearch (pat : List Char) : List Char → Bool
  | [] => headMatch pat []
  | c :: rest => headMatch pat (c :: rest) || strSearch pat rest

/-- re.search(restart_pattern, line) from line 89, for literal
patterns. -/
def reSearch (pat s : List Char) : Bool :=
  strSearch pat s

/-- Lines 78-102 of src/restart_manager.py: the character loop over
the data of one ready pipe.  Arguments: the pattern matcher, the
current clock value, the characters read, the buffer, the records
finalized so far, and the last-output time.  Returns the finalized
records, the leftover buffer content and the updated last-output
time (refreshed at each matching newline, line 89-90, and at the
end when the buffer is nonempty, line 101-102). -/
def processPipe (m : List Char → Bool) (now : Nat) :
    List Char → List Char → List (List Char) → Nat →
    (List (List Char) × List Char × Nat)
  | [], buf, recs, last =>
      (recs, buf, if buf.length > 0 then now else last)
  | c :: rest, buf, recs, last =>
      if c = '\r' then
        processPipe m now rest [] recs last
      else if c = '\n' then
        processPipe m now rest [] (recs ++ [buf])
          (if m buf then now else last)
      else
        processPipe m now rest (buf ++ [c]) recs last

/-! ## Spawn configuration (src/restart_manager.py lines 62-69)

The subprocess.Popen keyword arguments used by the worker. -/

/-- Destination of a standard stream in the Popen call: a dedicated
pipe, redirection into the stdout stream (subprocess.STDOUT), or
inheritance from the parent. -/
inductive StdStream
  | pipe
  | stdoutOf
  | inherit
deriving DecidableEq, Repr

/-- Text-decoding error policy of the TextIOWrapper that Popen wraps
around the pipes in text mode. -/
inductive ErrPolicy
  | strict
  | replace
deriving DecidableEq, Repr

/-- When Popen is given no errors argument, the wrapper defaults to
the strict policy. -/
def effectiveErrors : Option ErrPolicy → ErrPolicy
  | none => ErrPolicy.strict
  | some p => p

/-- Whether decoding a chunk raises: only the strict policy raises,
and only on malformed input. -/
def decodeRaises : ErrPolicy → Bool → Bool
  | ErrPolicy.strict, malformed => malformed
  | ErrPolicy.replace, _ => false

/-- The Popen keyword arguments of src/restart_manager.py
lines 62-69. -/
structure SpawnSpec where
  shell : Bool
  stdout : StdStream
  stderr : StdStream
  bufsize : Nat
  universal_newlines : Bool
  errorsArg : Option ErrPolicy
deriving DecidableEq, Repr

/-- The exact spawn configuration of the worker: shell=True,
stdout=PIPE, stderr=PIPE, bufsize=1, universal_newlines=True, and no
errors argument. -/
def workerSpawnSpec : SpawnSpec :=
  { shell := true
    stdout := StdStream.pipe
    stderr := StdStream.pipe
    bufsize := 1
    universal_newlines := true
    errorsArg := none }

/-- stdout and stderr are captured as one combined stream exactly
when stderr is redirected into stdout. -/
def combinedOutput (s : SpawnSpec) : Bool :=
  s.stderr = StdStream.stdoutOf

/-! ## Worker loop state and actions (src/restart_manager.py lines 48-130) -/

/-- The mutable state of run_worker: the current process handle (as a
pid, none when no process is held) and last_output_time. -/
structure WorkerState where
  process : Option Nat
  lastOutputTime : Nat
deriving DecidableEq, Repr

/-- What one iteration of the worker loop observes of its
environment: the clock, the poll result at the top of the loop
(true means the process has exited), the pid the next spawn would
produce, the data of the pipes reported ready by select (the empty
list means select timed out), whether the monitoring block raises an
exception, the poll result in the silent branch, and the poll result
after the SIGURG probe. -/
structure StepEnv where
  now : Nat
  exitedTop : Bool
  newPid : Nat
  ready : List (List Char)
  raises : Bool
  exitedMid : Bool
  exitedAfterSigurg : Bool
deriving Repr

/-- The externally visible operations of one worker, in the order the
loop performs them. -/
inductive WAction
  | terminate (pid : Nat)
  | spawn (pid : Nat)
  | record (line : List Char)
  | sigurg (pid : Nat)
  | sleep (secs : Nat)
  | exit
deriving DecidableEq, Repr

/-- Is the action a sleep (a backoff delay)? -/
def WAction.isSleep : WAction → Bool
  | WAction.sleep _ => true
  | _ => false

/-- Is the action the emission of a finalized output record? -/
def WAction.isRecord : WAction → Bool
  | WAction.record _ => true
  | _ => false

/-- terminate_process is a no-op on a missing handle (line 16-17),
otherwise one synchronous terminate call. -/
def termActs : Option Nat → List WAction
  | none => []
  | some p => [WAction.terminate p]

/-- Lines 58-71: when no process is held or the held process has
exited, terminate the old handle (if any) and spawn a replacement,
resetting last_output_time to now. -/
def spawnStep (env : StepEnv) (st : WorkerState) :
    List WAction × WorkerState :=
  if st.process = none ∨ env.exitedTop = true then
    (termActs st.process ++ [WAction.spawn env.newPid],
      ⟨some env.newPid, env.now⟩)
  else
    ([], st)

/-- Lines 74-102: each pipe reported ready by select is drained into
a fresh buffer; the finalized records are emitted and the
last-output time is threaded through. -/
def readyStep (m : List Char → Bool) (now : Nat) :
    List (List Char) → Nat → List WAction × Nat
  | [], last => ([], last)
  | cs :: rest, last =>
      let r := processPipe m now cs [] [] last
      let rr := readyStep m now rest r.2.2
      (r.1.map WAction.record ++ rr.1, rr.2)

/-- Lines 104-114: select timed out.  If the process is still alive
and silent for more than 300 seconds, send SIGURG, sleep one second,
and if it is still alive terminate it and drop the handle. -/
def silentStep (env : StepEnv) (st : WorkerState) :
    List WAction × WorkerState :=
  match st.process with
  | none => ([], st)
  | some p =>
      if env.exitedMid = true then ([], st)
      else if 300 < env.now - st.lastOutputTime then
        if env.exitedAfterSigurg = true then
          ([WAction.sigurg p, WAction.sleep 1], st)
        else
          ([WAction.sigurg p, WAction.sleep 1, WAction.terminate p],
            ⟨none, env.now⟩)
      else ([], st)

/-- Lines 116-120: the configured idle-timeout check (minutes). -/
def timeoutCheck (tmo : Nat) (env : StepEnv) (st : WorkerState) :
    List WAction × WorkerState :=
  if tmo * 60 < env.now - st.lastOutputTime then
    (termActs st.process, ⟨none, env.now⟩)
  else
    ([], st)

/-- Lines 73-126: the monitoring block.  An exception anywhere in it
is caught by lines 122-126: terminate the process, drop the handle
and sleep five seconds (last_output_time is not touched there).
Otherwise process the ready pipes or run the silent branch, then the
idle-timeout check. -/
def tryStep (pat : List Char) (tmo : Nat) (env : StepEnv)
    (st : WorkerState) : List WAction × WorkerState :=
  if env.raises = true then
    (termActs st.process ++ [WAction.sleep 5],
      ⟨none, st.lastOutputTime⟩)
  else
    let r1 :=
      if env.ready.isEmpty then silentStep env st
      else
        let r := readyStep (reSearch pat) env.now env.ready st.lastOutputTime
        (r.1, ⟨st.process, r.2⟩)
    let r2 := timeoutCheck tmo env r1.2
    (r1.1 ++ r2.1, r2.2)

/-- One full iteration of the while-loop body, lines 58-126. -/
def stepBody (pat : List Char) (tmo : Nat) (env : StepEnv)
    (st : WorkerState) : List WAction × WorkerState :=
  let r1 := spawnStep env st
  let r2 := tryStep pat tmo env r1.2
  (r1.1 ++ r2.1, r2.2)

/-- Lines 128-130: after the loop observes the stop flag, the current
process (if any) is terminated before the worker unit exits. -/
def shutdownCleanup (st : WorkerState) : List WAction :=
  termActs st.process ++ [WAction.exit]

/-- The worker loop, lines 57-130, with explicit fuel.  The stop flag
and the per-iteration environments are indexed by the iteration
number.  When the fuel runs out the run is simply truncated (no exit
action is emitted). -/
def runWorkerLoop (pat : List Char) (tmo : Nat) (flag : Nat → Bool)
    (envs : Nat → StepEnv) : Nat → Nat → WorkerState →
    List WAction × WorkerState
  | 0, _, st => ([], st)
  | fuel + 1, i, st =>
      if flag i then
        (shutdownCleanup st, ⟨none, st.lastOutputTime⟩)
      else
        let r1 := stepBody pat tmo (envs i) st
        let r2 := runWorkerLoop pat tmo flag envs fuel (i + 1) r1.2
        (r1.1 ++ r2.1, r2.2)

/-! ## Process termination (src/restart_manager.py lines 15-46)

terminate_process is embedded over an abstract process table: which
pids exist, the descendant enumeration psutil returns for a root,
and whether each process exits within the 3-second grace period
after a graceful termination request, respectively after a forced
kill.  The embedding is sequential: processes change state only in
response to the signals the ladder itself sends. -/

/-- The process-table environment seen by terminate_process. -/
structure PTEnv where
  live : List Nat
  descendants : Nat → List Nat
  diesOnTerm : Nat → Bool
  diesOnKill : Nat → Bool

/-- The observable steps of the termination ladder. -/
inductive TAction
  | enumerated (pids : List Nat)
  | term (pid : Nat)
  | wait (secs : Nat)
  | kill (pid : Nat)
  | noSuchProcess
  | probe (pid : Nat)
  | finalKill (pid : Nat)
deriving DecidableEq, Repr

/-- Does the root pid still exist when the final probe of lines 39-44
runs?  It does exactly when it existed at entry and survived both
the graceful request and (being then still alive) the forced kill. -/
def rootSurvives (env : PTEnv) (pid : Nat) : Bool :=
  env.live.contains pid && !env.diesOnTerm pid && !env.diesOnKill pid

/-- Lines 20-37: enumerate the descendants, send terminate to every
descendant and then to the root, wait three seconds, and force-kill
every enumerated process still alive.  A missing root raises
psutil.NoSuchProcess, which is caught and logged (lines 34-35). -/
def ladderActs (env : PTEnv) (pid : Nat) : List TAction :=
  if env.live.contains pid then
    let children := env.descendants pid
    let alive := (children ++ [pid]).filter (fun p => !env.diesOnTerm p)
    TAction.enumerated children ::
      (children.map TAction.term ++ [TAction.term pid]
        ++ [TAction.wait 3] ++ alive.map TAction.kill)
  else
    [TAction.noSuchProcess]

/-- Lines 15-46: the full terminate_process call.  A missing handle
returns immediately (lines 16-17); otherwise the ladder runs, then
the root pid is probed with signal 0 and, if it still exists, killed
once more (lines 39-44). -/
def terminate_process : Option Nat → PTEnv → List TAction
  | none, _ => []
  | some pid, env =>
      ladderActs env pid ++ [TAction.probe pid]
        ++ (if rootSurvives env pid then [TAction.finalKill pid] else [])

/-! ## Timing of the inner read loop (src/restart_manager.py lines 74-81)

The select call (line 74) has an explicit 1.0-second ceiling, but the
inner loop of lines 78-81 reads one character at a time from a pipe
in blocking mode and stops only when read returns the empty string,
which happens only at end of stream.  To reason about how long that
loop holds the worker, the data of a pipe is modelled as a list of
(arrival time, character) events followed by a close time: each
read of a character blocks until that character has arrived, and the
final empty read blocks until the pipe closes. -/

/-- The select timeout of line 74, in seconds. -/
def selectTimeoutSecs : Nat := 1

/-- The time at which the inner read loop of lines 78-81 returns,
entered at time t over a pipe with the given timed characters and
close time. -/
def readCharLoopEnd : Nat → List (Nat × Char) → Nat → Nat
  | t, [], closeTime => max t closeTime
  | t, (ta, _) :: rest, closeTime => readCharLoopEnd (max t ta) rest closeTime

/-! ## Single-live-process discipline

A trace predicate for the worker action traces: tracking which
spawned process is currently unreaped, every spawn must happen while
no process is unreaped, i.e. the previous process has already been
given to terminate_process (which is synchronous, so the terminate
action in the trace marks its completed return). -/

/-- How one action changes the currently held (unreaped) process. -/
def liveAfterAct (cur : Option Nat) : WAction → Option Nat
  | WAction.spawn q => some q
  | WAction.terminate p => if cur = some p then none else cur
  | _ => cur

/-- A spawn is admissible only while no process is held. -/
def okSpawn (cur : Option Nat) : WAction → Bool
  | WAction.spawn _ => cur = none
  | _ => true

/-- Every spawn in the trace happens while no process is held: the
previously held process has been terminated first. -/
def spawnsSeparated : Option Nat → List WAction → Bool
  | _, [] => true
  | cur, a :: rest => okSpawn cur a && spawnsSeparated (liveAfterAct cur a) rest

/-- The held process after a whole trace. -/
def liveAfter (cur : Option Nat) : List WAction → Option Nat
  | [] => cur
  | a :: rest => liveAfter (liveAfterAct cur a) rest

/-- A concrete process table for the ladder witness: root 1 with
descendants 2 and 3; process 2 exits on the graceful request,
processes 1 and 3 survive it; everything dies on a forced kill. -/
def ladderEnv : PTEnv :=
  { live := [1, 2, 3]
    descendants := fun p => if p = 1 then [2, 3] else []
    diesOnTerm := fun p => p = 2
    diesOnKill := fun _ => true }

/-- Concrete environment: the held process has exited, a replacement
pid 2 is available, the clock reads 10, select reports nothing and
nothing raises. -/
def env0 : StepEnv :=
  { now := 10
    exitedTop := true
    newPid := 2
    ready := []
    raises := false
    exitedMid := false
    exitedAfterSigurg := false }

/-- Concrete environment in which the monitoring block raises. -/
def envR : StepEnv :=
  { now := 10
    exitedTop := false
    newPid := 2
    ready := []
    raises := true
    exitedMid := false
    exitedAfterSigurg := false }

/-- Concrete environment: clock 400, the process is alive and select
reports nothing, and the process survives the SIGURG probe. -/
def envS : StepEnv :=
  { now := 400
    exitedTop := false
    newPid := 9
    ready := []
    raises := false
    exitedMid := false
    exitedAfterSigurg := false }

/-! ## Helper lemmas -/

/-- Helper for the record-refresh analysis: feeding the characters of
a single line (no carriage return, no newline in it) followed by a
newline finalizes exactly one record, and the last-output time is
refreshed exactly when the record matches the pattern. -/
theorem processPipe_line (m : List Char → Bool) (now : Nat) :
    ∀ (line buf : List Char) (recs : List (List Char)) (last : Nat),
      (∀ c ∈ line, c ≠ '\r' ∧ c ≠ '\n') →
      processPipe m now (line ++ ['\n']) buf recs last =
        (recs ++ [buf ++ line], [],
          if m (buf ++ line) then now else last)
  | [], buf, recs, last, _ => by
      simp [processPipe]
  | c :: line, buf, recs, last, h => by
      have hc := h c (List.mem_cons_self c line)
      have hrest : ∀ x ∈ line, x ≠ '\r' ∧ x ≠ '\n' := by
        intro x hx
        exact h x (List.mem_cons_of_mem c hx)
      have ih := processPipe_line m now line (buf ++ [c]) recs last hrest
      simp [processPipe, hc.1, hc.2, ih]

theorem spawnsSeparated_append (l1 l2 : List WAction) :
    ∀ cur, spawnsSeparated cur (l1 ++ l2) =
      (spawnsSeparated cur l1 && spawnsSeparated (liveAfter cur l1) l2) := by
  induction l1 with
  | nil => intro cur; simp [spawnsSeparated, liveAfter]
  | cons a rest ih =>
      intro cur
      simp [spawnsSeparated, liveAfter, ih, Bool.and_assoc]

theorem liveAfter_append (l1 l2 : List WAction) :
    ∀ cur, liveAfter cur (l1 ++ l2) = liveAfter (liveAfter cur l1) l2 := by
  induction l1 with
  | nil => intro cur; simp [liveAfter]
  | cons a rest ih => intro cur; simp [liveAfter, ih]

/-- Record actions are inert for the separation predicate. -/
theorem spawnsSeparated_records (l : List (List Char)) :
    ∀ cur, spawnsSeparated cur (l.map WAction.record) = true ∧
      liveAfter cur (l.map WAction.record) = cur := by
  induction l with
  | nil => intro cur; simp [spawnsSeparated, liveAfter]
  | cons x rest ih =>
      intro cur
      simpa [spawnsSeparated, liveAfter, okSpawn, liveAfterAct] using ih cur

theorem spawnStep_sep (env : StepEnv) (st : WorkerState) :
    spawnsSeparated st.process (spawnStep env st).1 = true ∧
      liveAfter st.process (spawnStep env st).1 = (spawnStep env st).2.process := by
  unfold spawnStep
  split
  · cases h : st.process with
    | none => simp [h, termActs, spawnsSeparated, okSpawn, liveAfterAct, liveAfter]
    | some p => simp [h, termActs, spawnsSeparated, okSpawn, liveAfterAct, liveAfter]
  · simp [spawnsSeparated, liveAfter]

theorem readyStep_sep (m : List Char → Bool) (now : Nat) :
    ∀ (ready : List (List Char)) (last : Nat) (cur : Option Nat),
      spawnsSeparated cur (readyStep m now ready last).1 = true ∧
        liveAfter cur (readyStep m now ready last).1 = cur := by
  intro ready
  induction ready with
  | nil => intro last cur; simp [readyStep, spawnsSeparated, liveAfter]
  | cons cs rest ih =>
      intro last cur
      have hr := spawnsSeparated_records (processPipe m now cs [] [] last).1 cur
      have hi := ih (processPipe m now cs [] [] last).2.2 cur
      simp [readyStep, spawnsSeparated_append, liveAfter_append, hr.1, hr.2,
        hi.1, hi.2]

theorem silentStep_sep (env : StepEnv) (st : WorkerState) :
    spawnsSeparated st.process (silentStep env st).1 = true ∧
      liveAfter st.process (silentStep env st).1 = (silentStep env st).2.process := by
  unfold silentStep
  cases h : st.process with
  | none => simp [h, spawnsSeparated, liveAfter]
  | some p =>
      simp only [h]
      split
      · simp [h, spawnsSeparated, liveAfter]
      · split
        · split
          · simp [h, spawnsSeparated, okSpawn, liveAfterAct, liveAfter]
          · simp [h, spawnsSeparated, okSpawn, liveAfterAct, liveAfter]
        · simp [h, spawnsSeparated, liveAfter]

theorem timeoutCheck_sep (tmo : Nat) (env : StepEnv) (st : WorkerState) :
    spawnsSeparated st.process (timeoutCheck tmo env st).1 = true ∧
      liveAfter st.process (timeoutCheck tmo env st).1 =
        (timeoutCheck tmo env st).2.process := by
  unfold timeoutCheck
  split
  · cases h : st.process with
    | none => simp [h, termActs, spawnsSeparated, liveAfter]
    | some p => simp [h, termActs, spawnsSeparated, okSpawn, liveAfterAct, liveAfter]
  · simp [spawnsSeparated, liveAfter]

theorem tryStep_sep (pat : List Char) (tmo : Nat) (env : StepEnv)
    (st : WorkerState) :
    spawnsSeparated st.process (tryStep pat tmo env st).1 = true ∧
      liveAfter st.process (tryStep pat tmo env st).1 =
        (tryStep pat tmo env st).2.process := by
  unfold tryStep
  split
  · cases h : st.process with
    | none => simp [h, termActs, spawnsSeparated, okSpawn, liveAfterAct, liveAfter]
    | some p => simp [h, termActs, spawnsSeparated, okSpawn, liveAfterAct, liveAfter]
  · split
    · have h1 := silentStep_sep env st
      have h2 := timeoutCheck_sep tmo env (silentStep env st).2
      simp [spawnsSeparated_append, liveAfter_append, h1.1, h1.2, h2.1, h2.2]
    · have hr := readyStep_sep (reSearch pat) env.now env.ready
        st.lastOutputTime st.process
      have h2 := timeoutCheck_sep tmo env
        ⟨st.process, (readyStep (reSearch pat) env.now env.ready st.lastOutputTime).2⟩
      simp only [spawnsSeparated_append, liveAfter_append, hr.1, hr.2, Bool.true_and]
      exact ⟨h2.1, h2.2⟩

theorem stepBody_sep (pat : List Char) (tmo : Nat) (env : StepEnv)
    (st : WorkerState) :
    spawnsSeparated st.process (stepBody pat tmo env st).1 = true ∧
      liveAfter st.process (stepBody pat tmo env st).1 =
        (stepBody pat tmo env st).2.process := by
  unfold stepBody
  have h1 := spawnStep_sep env st
  have h2 := tryStep_sep pat tmo env (spawnStep env st).2
  simp [spawnsSeparated_append, liveAfter_append, h1.1, h1.2, h2.1, h2.2]

/-! ## Claim theorems -/

/-- Claim C4: at most one live managed process exists per worker
slot.  In every trace the worker loop can produce — from any fuel,
iteration index, stop flag, environment schedule and starting
state — every spawn action happens while no spawned process is
unreaped: the previously held process has received its synchronous
terminate call (which has therefore returned) earlier in the
trace. -/
theorem single_live_process_invariant (pat : List Char) (tmo : Nat)
    (flag : Nat → Bool) (envs : Nat → StepEnv) :
    ∀ (fuel i : Nat) (st : WorkerState),
      spawnsSeparated st.process
        (runWorkerLoop pat tmo flag envs fuel i st).1 = true := by
  intro fuel
  induction fuel with
  | zero => intro i st; simp [runWorkerLoop, spawnsSeparated]
  | succ n ih =>
      intro i st
      unfold runWorkerLoop
      split
      · unfold shutdownCleanup
        cases h : st.process with
        | none => simp [h, termActs, spawnsSeparated, okSpawn, liveAfterAct]
        | some p => simp [h, termActs, spawnsSeparated, okSpawn, liveAfterAct]
      · have h1 := stepBody_sep pat tmo (envs i) st
        have h2 := ih (i + 1) (stepBody pat tmo (envs i) st).2
        simp [spawnsSeparated_append, h1.1, h1.2, h2]

/-- Claim C6: a carriage return discards only the unflushed buffer
of the in-progress record, emits no record and leaves the already
finalized records untouched; and feeding the concrete input
ab-CR-cd-LF yields exactly the single finalized record cd. -/
theorem carriage_return_discards_buffer :
    (∀ (m : List Char → Bool) (now : Nat) (rest buf : List Char)
        (recs : List (List Char)) (last : Nat),
        processPipe m now ('\r' :: rest) buf recs last =
          processPipe m now rest [] recs last) ∧
      processPipe (reSearch ['x']) 5 ("ab\rcd\n".toList) [] [] 0 =
        ([['c', 'd']], [], 0) := by
  constructor
  · intro m now rest buf recs last
    simp [processPipe]
  · decide

/-- Claim C1 counterexample: processing the finalized record hello
(fed as hello-LF) against the pattern XYZ, starting from
last-output time 0 at clock time 100, leaves the last-output time
at 0 even though a record was finalized — the record alone does not
refresh the liveness timestamp. -/
theorem nonmatching_record_no_refresh :
    processPipe (reSearch "XYZ".toList) 100 ("hello\n".toList) [] [] 0 =
      ([("hello".toList)], [], 0) ∧ (0 : Nat) ≠ 100 := by
  constructor
  · decide
  · decide

/-- Claim C1 as amended: a finalized record refreshes the
last-activity timestamp exactly when it matches the configured
pattern; a non-matching finalized record leaves the timestamp
unchanged.  (Unflushed trailing content at the end of a read also
refreshes it, by lines 101-102; here the input ends at the
newline, so the buffer is empty afterwards.) -/
theorem record_refresh_iff_match (m : List Char → Bool) (now : Nat)
    (line : List Char) (recs : List (List Char)) (last : Nat)
    (h : ∀ c ∈ line, c ≠ '\r' ∧ c ≠ '\n') :
    processPipe m now (line ++ ['\n']) [] recs last =
      (recs ++ [line], [], if m line then now else last) := by
  simpa using processPipe_line m now line [] recs last h

theorem record_refresh_iff_match_witness :
    processPipe (reSearch ['h', 'i']) 7 (['h', 'i'] ++ ['\n']) [] [] 0 =
      ([['h', 'i']], [], 7) := by
  have h := record_refresh_iff_match (reSearch ['h', 'i']) 7 ['h', 'i'] [] 0
    (by decide)
  rw [h]
  decide

/-- Claim C2, evaluated at the failing input: a pipe that delivers
one character at time 0 and then stays open, silent, until closing
at time 100 holds the inner read loop (entered at time 0) until
time 100 — far past the 1-second select ceiling — because each
blocking one-character read only returns at end of stream. -/
theorem read_loop_blocks_past_poll_interval :
    readCharLoopEnd 0 [(0, 'a')] 100 = 100 ∧
      selectTimeoutSecs < 100 - 0 := by
  constructor
  · decide
  · decide

/-- Claim C3: on a live root pid, terminate_process performs exactly
the escalation ladder in order: enumerate the descendants, send a
graceful termination request to every descendant and then to the
root, wait the fixed 3-second grace period, force-kill every
enumerated process that did not exit within the grace period, then
probe the root pid with a zero-effect check and issue one more
unconditional kill exactly if it still exists — and the call
returns (the trace is this finite list). -/
theorem terminate_ladder_order (env : PTEnv) (pid : Nat)
    (h : env.live.contains pid = true) :
    terminate_process (some pid) env =
      TAction.enumerated (env.descendants pid) ::
        ((env.descendants pid).map TAction.term
          ++ [TAction.term pid]
          ++ [TAction.wait 3]
          ++ ((env.descendants pid ++ [pid]).filter
                (fun p => !env.diesOnTerm p)).map TAction.kill
          ++ [TAction.probe pid]
          ++ (if rootSurvives env pid then [TAction.finalKill pid] else [])) := by
  have hmem : pid ∈ env.live := by simpa using h
  simp [terminate_process, ladderActs, hmem, List.append_assoc]

theorem terminate_ladder_order_witness :
    terminate_process (some 1) ladderEnv =
      [TAction.enumerated [2, 3], TAction.term 2, TAction.term 3,
        TAction.term 1, TAction.wait 3, TAction.kill 3, TAction.kill 1,
        TAction.probe 1] := by
  have h := terminate_ladder_order ladderEnv 1 (by decide)
  rw [h]
  decide

/-- Threading an already-fresh last-output time through a pipe read
keeps it fresh: every update the character loop makes writes the
same clock value. -/
theorem processPipe_last_now (m : List Char → Bool) (now : Nat) :
    ∀ (cs buf : List Char) (recs : List (List Char)),
      (processPipe m now cs buf recs now).2.2 = now
  | [], buf, recs => by simp [processPipe]
  | c :: rest, buf, recs => by
      by_cases hr : c = '\r'
      · simp [processPipe, hr, processPipe_last_now m now rest [] recs]
      · by_cases hn : c = '\n'
        · simp [processPipe, hr, hn,
            processPipe_last_now m now rest [] (recs ++ [buf])]
        · simp [processPipe, hr, hn,
            processPipe_last_now m now rest (buf ++ [c]) recs]

theorem records_all_isRecord (l : List (List Char)) :
    ((l.map WAction.record).all fun a => a.isRecord) = true := by
  induction l with
  | nil => rfl
  | cons x rest ih => simp [WAction.isRecord, ih]

/-- Processing ready pipes starting from a fresh last-output time
emits only record actions and keeps the time fresh. -/
theorem readyStep_fresh (m : List Char → Bool) (now : Nat) :
    ∀ ready : List (List Char),
      (readyStep m now ready now).2 = now ∧
        ((readyStep m now ready now).1.all fun a => a.isRecord) = true
  | [] => by simp [readyStep]
  | cs :: rest => by
      have hp := processPipe_last_now m now cs [] []
      have ih := readyStep_fresh m now rest
      simp [readyStep, hp, ih.1, ih.2, records_all_isRecord]

/-- Right after a spawn the last-output time equals the clock, so
neither the 300-second probe, nor the idle timeout, nor any backoff
fires in the same iteration: the monitoring block emits only record
actions and keeps the freshly spawned process. -/
theorem tryStep_fresh (pat : List Char) (tmo : Nat) (env : StepEnv)
    (pid : Nat) (h : env.raises = false) :
    ∃ acts : List WAction,
      tryStep pat tmo env ⟨some pid, env.now⟩ = (acts, ⟨some pid, env.now⟩) ∧
        (acts.all fun a => a.isRecord) = true := by
  unfold tryStep
  rw [h]
  simp only [Bool.false_eq_true, if_false]
  by_cases hr : env.ready.isEmpty
  · refine ⟨[], ?_, rfl⟩
    simp [hr, silentStep, timeoutCheck, Nat.sub_self]
  · have hf := readyStep_fresh (reSearch pat) env.now env.ready
    refine ⟨(readyStep (reSearch pat) env.now env.ready env.now).1, ?_, hf.2⟩
    simp [hr, timeoutCheck, hf.1, Nat.sub_self]

/-- Claim C5 counterexample: when the held process has exited
immediately (the shell-level manifestation of a spawn failure), the
restart iteration terminates the old handle and spawns a
replacement, and its action trace contains no sleep at all — there
is no backoff delay on this path. -/
theorem restart_path_has_no_backoff :
    stepBody ['X'] 5 env0 ⟨some 1, 0⟩ =
      ([WAction.terminate 1, WAction.spawn 2], ⟨some 2, 10⟩) ∧
      ((stepBody ['X'] 5 env0 ⟨some 1, 0⟩).1.all fun a => !a.isSleep) = true := by
  constructor
  · decide
  · decide

/-- Claim C5 as amended: a spawn failure under shell interpretation
manifests as a process that exits immediately; the worker then
follows the normal restart path — terminate the old handle, spawn a
replacement — and continues looping with the new process rather
than aborting the slot, but without any backoff delay: the rest of
the iteration emits only record actions (the lone 5-second backoff
in the code sits on the exception path). -/
theorem immediate_exit_restart_no_backoff (pat : List Char) (tmo : Nat)
    (env : StepEnv) (st : WorkerState) (p : Nat)
    (h1 : st.process = some p) (h2 : env.exitedTop = true)
    (h3 : env.raises = false) :
    ∃ recActs : List WAction,
      stepBody pat tmo env st =
        (WAction.terminate p :: WAction.spawn env.newPid :: recActs,
          ⟨some env.newPid, env.now⟩) ∧
        (recActs.all fun a => a.isRecord) = true := by
  obtain ⟨acts, he, ha⟩ := tryStep_fresh pat tmo env env.newPid h3
  refine ⟨acts, ?_, ha⟩
  unfold stepBody spawnStep
  rw [if_pos (Or.inr h2), h1]
  simp [termActs, he]

theorem immediate_exit_restart_no_backoff_witness :
    ∃ recActs : List WAction,
      stepBody ['X'] 5 env0 ⟨some 1, 0⟩ =
        (WAction.terminate 1 :: WAction.spawn 2 :: recActs, ⟨some 2, 10⟩) ∧
        (recActs.all fun a => a.isRecord) = true :=
  immediate_exit_restart_no_backoff ['X'] 5 env0 ⟨some 1, 0⟩ 1 rfl rfl rfl

/-- Claim C7 counterexample: the Popen call does not combine the two
output streams — stderr is its own pipe, not a redirection into
stdout. -/
theorem stderr_is_separate_pipe :
    combinedOutput workerSpawnSpec = false ∧
      workerSpawnSpec.stderr = StdStream.pipe := by
  constructor
  · decide
  · decide

/-- Claim C7 as amended: every spawn runs the command via a
shell-interpreted invocation and captures stdout and stderr as two
separate pipes (both are then monitored by the select call), and
whenever the spawn branch runs the liveness state is reset to the
current clock with the new process installed. -/
theorem spawn_shell_pipes_reset :
    workerSpawnSpec.shell = true ∧
      workerSpawnSpec.stdout = StdStream.pipe ∧
      workerSpawnSpec.stderr = StdStream.pipe ∧
      ∀ (env : StepEnv) (st : WorkerState),
        st.process = none ∨ env.exitedTop = true →
        (spawnStep env st).2 = ⟨some env.newPid, env.now⟩ := by
  refine ⟨rfl, rfl, rfl, ?_⟩
  intro env st h
  unfold spawnStep
  rw [if_pos h]

theorem spawn_shell_pipes_reset_witness :
    (spawnStep env0 ⟨none, 3⟩).2 = ⟨some 2, 10⟩ :=
  spawn_shell_pipes_reset.2.2.2 env0 ⟨none, 3⟩ (Or.inl rfl)

/-- Claim C8 counterexample: no errors argument is passed to Popen,
so the text wrapper uses the default strict policy — not the
replacement policy — and under the strict policy malformed input
does raise. -/
theorem decode_policy_is_strict :
    effectiveErrors workerSpawnSpec.errorsArg = ErrPolicy.strict ∧
      ErrPolicy.strict ≠ ErrPolicy.replace ∧
      decodeRaises (effectiveErrors workerSpawnSpec.errorsArg) true = true := by
  refine ⟨rfl, ?_, rfl⟩
  decide

/-- Claim C8 as amended: decoding uses the default strict policy, so
malformed input raises a decode error inside the monitoring block;
the generic exception handler of lines 122-126 catches it,
terminates the process, drops the handle and sleeps five seconds —
malformed input alone does trigger the error-restart path. -/
theorem strict_decode_error_restart :
    effectiveErrors workerSpawnSpec.errorsArg = ErrPolicy.strict ∧
      ∀ (pat : List Char) (tmo : Nat) (env : StepEnv) (st : WorkerState)
        (p : Nat), env.raises = true → st.process = some p →
        tryStep pat tmo env st =
          ([WAction.terminate p, WAction.sleep 5], ⟨none, st.lastOutputTime⟩) := by
  refine ⟨rfl, ?_⟩
  intro pat tmo env st p h1 h2
  simp [tryStep, h1, h2, termActs]

theorem strict_decode_error_restart_witness :
    tryStep ['x'] 5 envR ⟨some 3, 4⟩ =
      ([WAction.terminate 3, WAction.sleep 5], ⟨none, 4⟩) :=
  strict_decode_error_restart.2 ['x'] 5 envR ⟨some 3, 4⟩ 3 rfl rfl

/-- Claim C9: as soon as the worker loop observes the shutdown flag
while holding a live process, its remaining trace is exactly the
terminate call on that process followed by the exit of the worker
unit, and it holds no process afterwards — a clean shutdown never
lets a worker exit with a live managed process. -/
theorem shutdown_terminates_before_exit (pat : List Char) (tmo : Nat)
    (flag : Nat → Bool) (envs : Nat → StepEnv) (fuel i : Nat)
    (st : WorkerState) (p : Nat) (hf : flag i = true)
    (hp : st.process = some p) :
    runWorkerLoop pat tmo flag envs (fuel + 1) i st =
      ([WAction.terminate p, WAction.exit], ⟨none, st.lastOutputTime⟩) := by
  simp [runWorkerLoop, hf, shutdownCleanup, hp, termActs]

theorem shutdown_terminates_before_exit_witness :
    runWorkerLoop ['x'] 5 (fun _ => true) (fun _ => env0) 1 0 ⟨some 4, 7⟩ =
      ([WAction.terminate 4, WAction.exit], ⟨none, 7⟩) :=
  shutdown_terminates_before_exit ['x'] 5 (fun _ => true) (fun _ => env0)
    0 0 ⟨some 4, 7⟩ 4 rfl rfl

/-- Claim C10: whatever the configured idle timeout, if select finds
no readable output, the process is alive, and more than 300 seconds
have passed since the last recorded activity, the iteration sends
SIGURG, sleeps one second, and — the process still being alive —
terminates it and drops the handle; any following iteration then
begins by spawning a replacement. -/
theorem silent_alive_restart_after_300s (pat : List Char) (tmo : Nat)
    (env : StepEnv) (st : WorkerState) (p : Nat)
    (h1 : st.process = some p) (h2 : env.exitedTop = false)
    (h3 : env.raises = false) (h4 : env.ready = [])
    (h5 : env.exitedMid = false) (h6 : env.exitedAfterSigurg = false)
    (h7 : 300 < env.now - st.lastOutputTime) :
    stepBody pat tmo env st =
      ([WAction.sigurg p, WAction.sleep 1, WAction.terminate p],
        ⟨none, env.now⟩) ∧
      ∀ env2 : StepEnv,
        ((stepBody pat tmo env2 ⟨none, env.now⟩).1).head? =
          some (WAction.spawn env2.newPid) := by
  constructor
  · have hcond : ¬(st.process = none ∨ env.exitedTop = true) := by
      rw [h1, h2]; simp
    unfold stepBody spawnStep
    rw [if_neg hcond]
    simp [tryStep, silentStep, timeoutCheck, h1, h3, h4, h5, h6, h7,
      Nat.sub_self, Nat.not_lt_zero]
  · intro env2
    unfold stepBody spawnStep
    rw [if_pos (Or.inl rfl)]
    simp [termActs]

theorem silent_alive_restart_after_300s_witness :
    stepBody ['p'] 5 envS ⟨some 4, 0⟩ =
      ([WAction.sigurg 4, WAction.sleep 1, WAction.terminate 4],
        ⟨none, 400⟩) :=
  (silent_alive_restart_after_300s ['p'] 5 envS ⟨some 4, 0⟩ 4
    rfl rfl rfl rfl rfl rfl (by decide)).1

end RestartManager
